import Mathlib

/-!
Verification of the `migrator` table-command renderer
(`table_command.go`): a shallow embedding of every command variant's
`toSQL` method and of `TableCommands.toSQL`, together with theorems
about the rendering rules.
-/

namespace Migrator

/-- The `columnType` capability: commands only ever call `buildRow`,
so the capability is embedded as the string that call returns. -/
structure ColumnType where
  buildRow : String
deriving DecidableEq, Repr

/-- Modelled from the spec: the `Foreign` descriptor type is defined
outside `table_command.go`; per the spec it must expose a render
operation returning the constraint clause body, with the empty string
signalling that there is no constraint.  Commands only ever call
`render`, so the descriptor is embedded as that string. -/
structure Foreign where
  render : String
deriving DecidableEq, Repr

/-- Go `strings.Join(elems, sep)`: the elements interleaved with the
separator; empty list gives the empty string. -/
def stringsJoin (sep : String) : List String → String
  | [] => ""
  | [s] => s
  | s :: rest => s ++ sep ++ stringsJoin sep rest

/-- `AddColumnCommand` from the source: name, nilable column
definition, and the `After`/`First` positional fields. -/
structure AddColumnCommand where
  Name : String
  Column : Option ColumnType
  After : String
  First : Bool
deriving DecidableEq, Repr

/-- `AddColumnCommand.toSQL` from the source: empty on a nil column,
empty name or empty definition; otherwise the ADD COLUMN fragment with
` AFTER <col>` when `After` is non-empty, else ` FIRST` when `First`
is set. -/
def AddColumnCommand.toSQL (c : AddColumnCommand) : String :=
  match c.Column with
  | none => ""
  | some col =>
    let definition := col.buildRow
    if c.Name = "" ∨ definition = "" then ""
    else
      let sql := "ADD COLUMN `" ++ c.Name ++ "` " ++ definition
      if c.After ≠ "" then sql ++ " AFTER " ++ c.After
      else if c.First then sql ++ " FIRST"
      else sql

/-- `RenameColumnCommand` from the source. -/
structure RenameColumnCommand where
  Old : String
  New : String
deriving DecidableEq, Repr

/-- `RenameColumnCommand.toSQL` from the source. -/
def RenameColumnCommand.toSQL (c : RenameColumnCommand) : String :=
  if c.Old = "" ∨ c.New = "" then ""
  else "RENAME COLUMN `" ++ c.Old ++ "` TO `" ++ c.New ++ "`"

/-- `ModifyColumnCommand` from the source. -/
structure ModifyColumnCommand where
  Name : String
  Column : Option ColumnType
deriving DecidableEq, Repr

/-- `ModifyColumnCommand.toSQL` from the source. -/
def ModifyColumnCommand.toSQL (c : ModifyColumnCommand) : String :=
  match c.Column with
  | none => ""
  | some col =>
    let definition := col.buildRow
    if c.Name = "" ∨ definition = "" then ""
    else "MODIFY `" ++ c.Name ++ "` " ++ definition

/-- `ChangeColumnCommand` from the source. -/
structure ChangeColumnCommand where
  From : String
  To : String
  Column : Option ColumnType
deriving DecidableEq, Repr

/-- `ChangeColumnCommand.toSQL` from the source (the source calls
`c.Column.buildRow()` a second time for the printed definition; the
call is pure, so it is the same string). -/
def ChangeColumnCommand.toSQL (c : ChangeColumnCommand) : String :=
  match c.Column with
  | none => ""
  | some col =>
    let definition := col.buildRow
    if c.From = "" ∨ c.To = "" ∨ definition = "" then ""
    else "CHANGE `" ++ c.From ++ "` `" ++ c.To ++ "` " ++ col.buildRow

/-- `DropColumnCommand` from the source: a bare string type. -/
abbrev DropColumnCommand := String

/-- `DropColumnCommand.toSQL` from the source. -/
def DropColumnCommand.toSQL (c : DropColumnCommand) : String :=
  if c = "" then "" else "DROP COLUMN `" ++ c ++ "`"

/-- `AddIndexCommand` from the source. -/
structure AddIndexCommand where
  Name : String
  Columns : List String
deriving DecidableEq, Repr

/-- `AddIndexCommand.toSQL` from the source. -/
def AddIndexCommand.toSQL (c : AddIndexCommand) : String :=
  if c.Name = "" ∨ c.Columns = [] then ""
  else "ADD KEY `" ++ c.Name ++ "` (`" ++ stringsJoin "`, `" c.Columns ++ "`)"

/-- `DropIndexCommand` from the source: a bare string type. -/
abbrev DropIndexCommand := String

/-- `DropIndexCommand.toSQL` from the source. -/
def DropIndexCommand.toSQL (c : DropIndexCommand) : String :=
  if c = "" then "" else "DROP KEY `" ++ c ++ "`"

/-- `AddForeignCommand` from the source. -/
structure AddForeignCommand where
  Foreign : Foreign
deriving DecidableEq, Repr

/-- `AddForeignCommand.toSQL` from the source. -/
def AddForeignCommand.toSQL (c : AddForeignCommand) : String :=
  if c.Foreign.render = "" then "" else "ADD " ++ c.Foreign.render

/-- `DropForeignCommand` from the source: a bare string type. -/
abbrev DropForeignCommand := String

/-- `DropForeignCommand.toSQL` from the source. -/
def DropForeignCommand.toSQL (c : DropForeignCommand) : String :=
  if c = "" then "" else "DROP FOREIGN KEY `" ++ c ++ "`"

/-- `AddUniqueIndexCommand` from the source. -/
structure AddUniqueIndexCommand where
  Key : String
  Columns : List String
deriving DecidableEq, Repr

/-- `AddUniqueIndexCommand.toSQL` from the source. -/
def AddUniqueIndexCommand.toSQL (c : AddUniqueIndexCommand) : String :=
  if c.Key = "" ∨ c.Columns = [] then ""
  else "ADD UNIQUE KEY `" ++ c.Key ++ "` (`" ++ stringsJoin "`, `" c.Columns ++ "`)"

/-- `AddPrimaryIndexCommand` from the source: a bare string type. -/
abbrev AddPrimaryIndexCommand := String

/-- `AddPrimaryIndexCommand.toSQL` from the source. -/
def AddPrimaryIndexCommand.toSQL (c : AddPrimaryIndexCommand) : String :=
  if c = "" then "" else "ADD PRIMARY KEY (`" ++ c ++ "`)"

/-- `DropPrimaryIndexCommand` from the source: a fieldless struct. -/
structure DropPrimaryIndexCommand where
deriving DecidableEq, Repr

/-- `DropPrimaryIndexCommand.toSQL` from the source. -/
def DropPrimaryIndexCommand.toSQL (_ : DropPrimaryIndexCommand) : String :=
  "DROP PRIMARY KEY"

/-- The `command` interface as a closed sum of the variants defined in
`table_command.go`. -/
inductive command where
  | addColumn : AddColumnCommand → command
  | renameColumn : RenameColumnCommand → command
  | modifyColumn : ModifyColumnCommand → command
  | changeColumn : ChangeColumnCommand → command
  | dropColumn : DropColumnCommand → command
  | addIndex : AddIndexCommand → command
  | dropIndex : DropIndexCommand → command
  | addForeign : AddForeignCommand → command
  | dropForeign : DropForeignCommand → command
  | addUniqueIndex : AddUniqueIndexCommand → command
  | addPrimaryIndex : AddPrimaryIndexCommand → command
  | dropPrimaryIndex : DropPrimaryIndexCommand → command
deriving DecidableEq, Repr

/-- Dynamic dispatch of the `toSQL` method. -/
def command.toSQL : command → String
  | addColumn c => c.toSQL
  | renameColumn c => c.toSQL
  | modifyColumn c => c.toSQL
  | changeColumn c => c.toSQL
  | dropColumn c => c.toSQL
  | addIndex c => c.toSQL
  | dropIndex c => c.toSQL
  | addForeign c => c.toSQL
  | dropForeign c => c.toSQL
  | addUniqueIndex c => c.toSQL
  | addPrimaryIndex c => c.toSQL
  | dropPrimaryIndex c => c.toSQL

/-- `TableCommands` from the source. -/
abbrev TableCommands := List command

/-- `TableCommands.toSQL` from the source: render every command in
order and join all the results (empty ones included) with `, `. -/
def TableCommands.toSQL (tc : TableCommands) : String :=
  stringsJoin ", " (tc.map command.toSQL)

/-- Invoking `buildRow` through the nilable capability, in the
Option-valued embedding: a method call on a nil receiver fails. -/
def derefBuildRow : Option ColumnType → Option String
  | none => none
  | some col => some col.buildRow

/-- `AddColumnCommand.toSQL` in the Option-valued embedding, following
the source's statement order: the nil check comes first, and only after
it does the method call on the capability happen. -/
def AddColumnCommand.toSQLChecked (c : AddColumnCommand) : Option String :=
  if c.Column.isNone then some ""
  else do
    let definition ← derefBuildRow c.Column
    if c.Name = "" ∨ definition = "" then pure ""
    else
      let sql := "ADD COLUMN `" ++ c.Name ++ "` " ++ definition
      if c.After ≠ "" then pure (sql ++ " AFTER " ++ c.After)
      else if c.First then pure (sql ++ " FIRST")
      else pure sql

/-- `ModifyColumnCommand.toSQL` in the Option-valued embedding. -/
def ModifyColumnCommand.toSQLChecked (c : ModifyColumnCommand) : Option String :=
  if c.Column.isNone then some ""
  else do
    let definition ← derefBuildRow c.Column
    if c.Name = "" ∨ definition = "" then pure ""
    else pure ("MODIFY `" ++ c.Name ++ "` " ++ definition)

/-- `ChangeColumnCommand.toSQL` in the Option-valued embedding; the
source calls `buildRow` on the capability a second time when printing,
which this embedding mirrors with a second dereference. -/
def ChangeColumnCommand.toSQLChecked (c : ChangeColumnCommand) : Option String :=
  if c.Column.isNone then some ""
  else do
    let definition ← derefBuildRow c.Column
    if c.From = "" ∨ c.To = "" ∨ definition = "" then pure ""
    else do
      let printed ← derefBuildRow c.Column
      pure ("CHANGE `" ++ c.From ++ "` `" ++ c.To ++ "` " ++ printed)

/-- Dispatch of the Option-valued embedding; the variants without a
nilable capability cannot fail. -/
def command.toSQLChecked : command → Option String
  | addColumn c => c.toSQLChecked
  | modifyColumn c => c.toSQLChecked
  | changeColumn c => c.toSQLChecked
  | renameColumn c => some c.toSQL
  | dropColumn c => some (DropColumnCommand.toSQL c)
  | addIndex c => some c.toSQL
  | dropIndex c => some (DropIndexCommand.toSQL c)
  | addForeign c => some c.toSQL
  | dropForeign c => some (DropForeignCommand.toSQL c)
  | addUniqueIndex c => some c.toSQL
  | addPrimaryIndex c => some (AddPrimaryIndexCommand.toSQL c)
  | dropPrimaryIndex c => some c.toSQL

/-- A nonempty left factor keeps a concatenation nonempty. -/
theorem append_ne_empty_left (s t : String) (hs : s ≠ "") : s ++ t ≠ "" := by
  intro h
  apply hs
  have hd : s.data ++ t.data = [] := by
    simpa [String.data_append] using congrArg String.data h
  exact String.ext (List.append_eq_nil.mp hd).1

/-- Unfolding `stringsJoin` on a list with at least two elements. -/
theorem stringsJoin_cons_cons (sep x y : String) (rest : List String) :
    stringsJoin sep (x :: y :: rest) = x ++ sep ++ stringsJoin sep (y :: rest) := rfl

/-- `strings.Join` distributes over the concatenation of two nonempty lists. -/
theorem stringsJoin_append (sep : String) (xs ys : List String)
    (hx : xs ≠ []) (hy : ys ≠ []) :
    stringsJoin sep (xs ++ ys) = stringsJoin sep xs ++ sep ++ stringsJoin sep ys := by
  induction xs with
  | nil => exact absurd rfl hx
  | cons x xs ih =>
    cases xs with
    | nil =>
      cases ys with
      | nil => exact absurd rfl hy
      | cons y ys => simp [stringsJoin_cons_cons, stringsJoin]
    | cons x2 xs2 =>
      have step : stringsJoin sep ((x2 :: xs2) ++ ys)
          = stringsJoin sep (x2 :: xs2) ++ sep ++ stringsJoin sep ys :=
        ih (by simp)
      calc stringsJoin sep ((x :: x2 :: xs2) ++ ys)
          = x ++ sep ++ stringsJoin sep ((x2 :: xs2) ++ ys) := rfl
        _ = x ++ sep ++ (stringsJoin sep (x2 :: xs2) ++ sep ++ stringsJoin sep ys) := by
            rw [step]
        _ = stringsJoin sep (x :: x2 :: xs2) ++ sep ++ stringsJoin sep ys := by
            rw [stringsJoin_cons_cons]
            simp [String.append_assoc]

/-- Claim C1: the claim (and the spec) say commands whose self-render is
empty are excluded from the join, so a list mixing well-formed and
incomplete commands never shows a stray comma.  The code appends every
render, empty or not, before joining: on the list holding one incomplete
Add Column command (nil column definition) and one well-formed Drop Index
command, `TableCommands.toSQL` emits a leading `, ` instead of just the
well-formed fragment. -/
theorem tableCommands_toSQL_keeps_blank_segment :
    TableCommands.toSQL [command.addColumn ⟨"", none, "", false⟩,
      command.dropIndex "idx_x"] = ", DROP KEY `idx_x`" ∧
    TableCommands.toSQL [command.addColumn ⟨"", none, "", false⟩,
      command.dropIndex "idx_x"] ≠ "DROP KEY `idx_x`" := by
  constructor
  · rfl
  · decide

/-- Claim C4: the claim states the after-column name is wrapped in
backticks in the AFTER clause; the code appends ` AFTER ` plus the raw
name, so the well-formed command with Name "age", definition
"INT NOT NULL" and After "name" renders with an unquoted `AFTER name`. -/
theorem addColumn_after_unquoted_cex :
    AddColumnCommand.toSQL ⟨"age", some ⟨"INT NOT NULL"⟩, "name", false⟩
      = "ADD COLUMN `age` INT NOT NULL AFTER name" ∧
    AddColumnCommand.toSQL ⟨"age", some ⟨"INT NOT NULL"⟩, "name", false⟩
      ≠ "ADD COLUMN `age` INT NOT NULL AFTER `name`" := by
  constructor
  · rfl
  · decide

/-- Claim C4 (amended): for every well-formed Add Column command with a
non-empty After column, the rendered fragment is
`ADD COLUMN \x60name\x60 <definition>` followed by ` AFTER ` and the
after-column name written as is, without backticks. -/
theorem addColumn_after_format (name after : String) (col : ColumnType)
    (first : Bool) (hn : name ≠ "") (hd : col.buildRow ≠ "") (ha : after ≠ "") :
    AddColumnCommand.toSQL ⟨name, some col, after, first⟩
      = "ADD COLUMN `" ++ name ++ "` " ++ col.buildRow ++ " AFTER " ++ after := by
  simp [AddColumnCommand.toSQL, hn, hd, ha]

/-- Witness for `addColumn_after_format` at a concrete command. -/
theorem addColumn_after_format_witness :
    AddColumnCommand.toSQL ⟨"age", some ⟨"INT NOT NULL"⟩, "nm", true⟩
      = "ADD COLUMN `age` INT NOT NULL AFTER nm" :=
  (addColumn_after_format "age" "nm" ⟨"INT NOT NULL"⟩ true
    (by decide) (by decide) (by decide)).trans rfl

/-- Claim C5: every Add Index command with a non-empty name and a
non-empty column list renders as `ADD KEY \x60name\x60 (...)` with the
column names joined by a backtick-comma-backtick separator inside one
backtick-wrapped parenthesised group. -/
theorem addIndex_toSQL_format (name : String) (cols : List String)
    (hn : name ≠ "") (hc : cols ≠ []) :
    AddIndexCommand.toSQL ⟨name, cols⟩
      = "ADD KEY `" ++ name ++ "` (`" ++ stringsJoin "`, `" cols ++ "`)" := by
  simp [AddIndexCommand.toSQL, hn, hc]

/-- Witness for `addIndex_toSQL_format` at the spec's example. -/
theorem addIndex_toSQL_format_witness :
    AddIndexCommand.toSQL ⟨"idx_age", ["age", "name"]⟩
      = "ADD KEY `idx_age` (`age`, `name`)" :=
  (addIndex_toSQL_format "idx_age" ["age", "name"]
    (by decide) (by decide)).trans rfl

/-- Claim C6: an Add Foreign Key command renders as `ADD ` plus the
descriptor's render when that render is non-empty, and as the empty
string when the descriptor renders empty. -/
theorem addForeign_toSQL_spec (f : Foreign) :
    AddForeignCommand.toSQL ⟨f⟩
      = if f.render = "" then "" else "ADD " ++ f.render := rfl

/-- Claim C7: rendering the empty command list yields the empty string
(and, the embedding being a total function, raises nothing). -/
theorem tableCommands_toSQL_nil : TableCommands.toSQL [] = "" := rfl

/-- Claim C2: for every variant, a missing required field — an empty
string identifier, a nil column-definition capability, an empty column
list, or an empty descriptor render for the foreign-key variant —
forces that command's self-render to the empty string.  The Drop
Primary Key variant has no required field, so the claim is vacuous
there. -/
theorem toSQL_empty_of_required_missing :
    (∀ c : AddColumnCommand, c.Name = "" ∨ c.Column = none → c.toSQL = "") ∧
    (∀ c : RenameColumnCommand, c.Old = "" ∨ c.New = "" → c.toSQL = "") ∧
    (∀ c : ModifyColumnCommand, c.Name = "" ∨ c.Column = none → c.toSQL = "") ∧
    (∀ c : ChangeColumnCommand,
      c.From = "" ∨ c.To = "" ∨ c.Column = none → c.toSQL = "") ∧
    (∀ c : DropColumnCommand, c = "" → DropColumnCommand.toSQL c = "") ∧
    (∀ c : AddIndexCommand, c.Name = "" ∨ c.Columns = [] → c.toSQL = "") ∧
    (∀ c : DropIndexCommand, c = "" → DropIndexCommand.toSQL c = "") ∧
    (∀ c : AddForeignCommand, c.Foreign.render = "" → c.toSQL = "") ∧
    (∀ c : DropForeignCommand, c = "" → DropForeignCommand.toSQL c = "") ∧
    (∀ c : AddUniqueIndexCommand, c.Key = "" ∨ c.Columns = [] → c.toSQL = "") ∧
    (∀ c : AddPrimaryIndexCommand, c = "" → AddPrimaryIndexCommand.toSQL c = "") := by
  refine ⟨?_, ?_, ?_, ?_, ?_, ?_, ?_, ?_, ?_, ?_, ?_⟩
  · rintro ⟨n, co, a, f⟩ h
    rcases co with _ | col
    · rfl
    · rcases h with rfl | h
      · simp [AddColumnCommand.toSQL]
      · exact absurd h (by simp)
  · rintro ⟨o, n⟩ h
    rcases h with rfl | rfl <;> simp [RenameColumnCommand.toSQL]
  · rintro ⟨n, co⟩ h
    rcases co with _ | col
    · rfl
    · rcases h with rfl | h
      · simp [ModifyColumnCommand.toSQL]
      · exact absurd h (by simp)
  · rintro ⟨fr, t, co⟩ h
    rcases co with _ | col
    · rfl
    · rcases h with rfl | rfl | h
      · simp [ChangeColumnCommand.toSQL]
      · simp [ChangeColumnCommand.toSQL]
      · exact absurd h (by simp)
  · rintro c rfl
    rfl
  · rintro ⟨n, cols⟩ h
    simp [AddIndexCommand.toSQL, h]
  · rintro c rfl
    rfl
  · rintro ⟨f⟩ h
    simp only [AddForeignCommand.toSQL]
    rw [if_pos h]
  · rintro c rfl
    rfl
  · rintro ⟨k, cols⟩ h
    simp [AddUniqueIndexCommand.toSQL, h]
  · rintro c rfl
    rfl

/-- Witness for `toSQL_empty_of_required_missing` at concrete
incomplete commands of several variants. -/
theorem toSQL_empty_of_required_missing_witness :
    AddColumnCommand.toSQL ⟨"", some ⟨"INT"⟩, "", false⟩ = "" ∧
    RenameColumnCommand.toSQL ⟨"", "name"⟩ = "" ∧
    AddIndexCommand.toSQL ⟨"idx", []⟩ = "" ∧
    AddForeignCommand.toSQL ⟨⟨""⟩⟩ = "" :=
  ⟨toSQL_empty_of_required_missing.1 _ (Or.inl rfl),
   toSQL_empty_of_required_missing.2.1 _ (Or.inl rfl),
   toSQL_empty_of_required_missing.2.2.2.2.2.1 _ (Or.inr rfl),
   toSQL_empty_of_required_missing.2.2.2.2.2.2.2.1 _ rfl⟩

/-- Claim C3: for a well-formed Add Column command, a non-empty After
column makes the output end in the ` AFTER <col>` suffix with nothing
after the column definition but that suffix, independently of the
First flag; with After empty and First set the output is the base
fragment plus ` FIRST`; with both unset the output ends at the column
definition. -/
theorem addColumn_positional_rules (name after : String) (col : ColumnType)
    (first : Bool) (hn : name ≠ "") (hd : col.buildRow ≠ "") :
    (after ≠ "" →
      AddColumnCommand.toSQL ⟨name, some col, after, first⟩
        = "ADD COLUMN `" ++ name ++ "` " ++ col.buildRow ++ " AFTER " ++ after ∧
      AddColumnCommand.toSQL ⟨name, some col, after, first⟩
        = AddColumnCommand.toSQL ⟨name, some col, after, true⟩) ∧
    (after = "" → first = true →
      AddColumnCommand.toSQL ⟨name, some col, after, first⟩
        = "ADD COLUMN `" ++ name ++ "` " ++ col.buildRow ++ " FIRST") ∧
    (after = "" → first = false →
      AddColumnCommand.toSQL ⟨name, some col, after, first⟩
        = "ADD COLUMN `" ++ name ++ "` " ++ col.buildRow) := by
  refine ⟨fun ha => ⟨?_, ?_⟩, fun ha hf => ?_, fun ha hf => ?_⟩
  · simp [AddColumnCommand.toSQL, hn, hd, ha]
  · simp [AddColumnCommand.toSQL, hn, hd, ha]
  · subst ha hf
    simp [AddColumnCommand.toSQL, hn, hd]
  · subst ha hf
    simp [AddColumnCommand.toSQL, hn, hd]

/-- Witness for `addColumn_positional_rules`: each positional case at a
concrete command. -/
theorem addColumn_positional_rules_witness :
    AddColumnCommand.toSQL ⟨"age", some ⟨"INT"⟩, "nm", false⟩
      = AddColumnCommand.toSQL ⟨"age", some ⟨"INT"⟩, "nm", true⟩ ∧
    AddColumnCommand.toSQL ⟨"age", some ⟨"INT"⟩, "", true⟩
      = "ADD COLUMN `age` INT FIRST" ∧
    AddColumnCommand.toSQL ⟨"age", some ⟨"INT"⟩, "", false⟩
      = "ADD COLUMN `age` INT" :=
  ⟨((addColumn_positional_rules "age" "nm" ⟨"INT"⟩ false
      (by decide) (by decide)).1 (by decide)).2,
   ((addColumn_positional_rules "age" "" ⟨"INT"⟩ true
      (by decide) (by decide)).2.1 rfl rfl).trans rfl,
   ((addColumn_positional_rules "age" "" ⟨"INT"⟩ false
      (by decide) (by decide)).2.2 rfl rfl).trans rfl⟩

/-- Claim C8: the list renderer renders a singleton as that command's
self-render, and on the concatenation of two non-empty lists it is the
join of the two renders with `, ` in between — each command rendered
independently, fragments in input order. -/
theorem tableCommands_toSQL_join_homomorphism :
    (∀ c : command, TableCommands.toSQL [c] = c.toSQL) ∧
    ∀ xs ys : TableCommands, xs ≠ [] → ys ≠ [] →
      TableCommands.toSQL (xs ++ ys)
        = TableCommands.toSQL xs ++ ", " ++ TableCommands.toSQL ys := by
  refine ⟨fun c => rfl, fun xs ys hx hy => ?_⟩
  unfold TableCommands.toSQL
  rw [List.map_append]
  exact stringsJoin_append ", " _ _ (by simpa using hx) (by simpa using hy)

/-- Witness for `tableCommands_toSQL_join_homomorphism` on concrete
one-element lists. -/
theorem tableCommands_toSQL_join_homomorphism_witness :
    TableCommands.toSQL [command.dropPrimaryIndex ⟨⟩] = "DROP PRIMARY KEY" ∧
    TableCommands.toSQL ([command.dropPrimaryIndex ⟨⟩] ++ [command.dropIndex "i"])
      = "DROP PRIMARY KEY, DROP KEY `i`" :=
  ⟨(tableCommands_toSQL_join_homomorphism.1 _).trans rfl,
   (tableCommands_toSQL_join_homomorphism.2 [command.dropPrimaryIndex ⟨⟩]
      [command.dropIndex "i"] (by decide) (by decide)).trans rfl⟩

/-- Claim C9: individual column names in Add Index and Add Unique Index
commands are not validated: with a non-empty name/key and a non-empty
column list the render is never empty, even when listed column names
are themselves empty, in which case empty backtick pairs appear. -/
theorem index_columns_not_validated :
    (∀ (name : String) (cols : List String), name ≠ "" → cols ≠ [] →
      AddIndexCommand.toSQL ⟨name, cols⟩ ≠ "" ∧
      AddUniqueIndexCommand.toSQL ⟨name, cols⟩ ≠ "") ∧
    AddIndexCommand.toSQL ⟨"n", [""]⟩ = "ADD KEY `n` (``)" ∧
    AddUniqueIndexCommand.toSQL ⟨"n", [""]⟩ = "ADD UNIQUE KEY `n` (``)" := by
  refine ⟨fun name cols hn hc => ⟨?_, ?_⟩, rfl, rfl⟩
  · rw [AddIndexCommand.toSQL, if_neg (by simp [hn, hc])]
    exact append_ne_empty_left _ _ (append_ne_empty_left _ _
      (append_ne_empty_left _ _ (append_ne_empty_left _ _ (by decide))))
  · rw [AddUniqueIndexCommand.toSQL, if_neg (by simp [hn, hc])]
    exact append_ne_empty_left _ _ (append_ne_empty_left _ _
      (append_ne_empty_left _ _ (append_ne_empty_left _ _ (by decide))))

/-- Witness for `index_columns_not_validated` at concrete commands whose
only column name is the empty string. -/
theorem index_columns_not_validated_witness :
    AddIndexCommand.toSQL ⟨"n", [""]⟩ ≠ "" ∧
    AddUniqueIndexCommand.toSQL ⟨"n", [""]⟩ ≠ "" :=
  index_columns_not_validated.1 "n" [""] (by decide) (by decide)

/-- Claim C10: every variant's self-render is total.  In the
Option-valued embedding a method call on a nil capability fails
(`derefBuildRow none = none`); since every variant with a nilable
capability checks for nil before calling `buildRow`, the embedding
never fails and agrees with the string-valued render on every command
value of every variant. -/
theorem toSQLChecked_total (c : command) :
    command.toSQLChecked c = some c.toSQL := by
  cases c with
  | addColumn c =>
    rcases c with ⟨n, co, a, f⟩
    rcases co with _ | col
    · rfl
    · simp only [command.toSQLChecked, command.toSQL,
        AddColumnCommand.toSQLChecked, AddColumnCommand.toSQL, derefBuildRow,
        Option.isNone_some, Bool.false_eq_true, if_false, Option.bind_eq_bind,
        Option.some_bind]
      split_ifs <;> rfl
  | modifyColumn c =>
    rcases c with ⟨n, co⟩
    rcases co with _ | col
    · rfl
    · simp only [command.toSQLChecked, command.toSQL,
        ModifyColumnCommand.toSQLChecked, ModifyColumnCommand.toSQL,
        derefBuildRow, Option.isNone_some, Bool.false_eq_true, if_false,
        Option.bind_eq_bind, Option.some_bind]
      split_ifs <;> rfl
  | changeColumn c =>
    rcases c with ⟨fr, t, co⟩
    rcases co with _ | col
    · rfl
    · simp only [command.toSQLChecked, command.toSQL,
        ChangeColumnCommand.toSQLChecked, ChangeColumnCommand.toSQL,
        derefBuildRow, Option.isNone_some, Bool.false_eq_true, if_false,
        Option.bind_eq_bind, Option.some_bind]
      split_ifs <;> rfl
  | renameColumn c => rfl
  | dropColumn c => rfl
  | addIndex c => rfl
  | dropIndex c => rfl
  | addForeign c => rfl
  | dropForeign c => rfl
  | addUniqueIndex c => rfl
  | addPrimaryIndex c => rfl
  | dropPrimaryIndex c => rfl

end Migrator
